import Mathlib

/-
  Shallow embedding of `src/sequences.py` (class `SequenceAnalyzer`) from the
  bioinformatics_api repository, together with theorems checking the
  natural-language specification against it.

  Conventions of the embedding:
  * Python strings are `List Char`; ASCII is assumed for `str.upper`.
  * Python floats are modelled as exact rationals (`ℚ`); `round(x, 2)` is
    modelled by `pyRound2` (round half to even, Python's rounding mode).
  * A Python function that can raise is modelled as `Except PyError _`;
    a `raise` at a given program point becomes the corresponding `.error`.
-/

/-- Error kinds raised by the code: `ValueError("Tipo de secuencia ...")`,
`ValueError("Bases inválidas encontradas: ...")` (carrying the offending
symbol set `set(sequence) - valid_bases`), Python's `ZeroDivisionError`,
and `KeyError` from `base_weigth[sequence_type]`. -/
inductive PyError where
  | invalidSequenceType : PyError
  | invalidBases : Finset Char → PyError
  | zeroDivisionError : PyError
  | keyError : String → PyError
deriving DecidableEq

/-- `self.valid_dna_bases = set('ATCGN')` (sequences.py line 35). -/
def valid_dna_bases : Finset Char := {'A', 'T', 'C', 'G', 'N'}

/-- `self.valid_rna_bases = set('AUTCN')` (sequences.py line 36) — note the
source literal is `'AUTCN'`: it contains `T` and no `G`. -/
def valid_rna_bases : Finset Char := {'A', 'U', 'T', 'C', 'N'}

/-- ASCII fragment of Python `str.upper` on one character. -/
def pyUpperChar (c : Char) : Char :=
  if 'a' ≤ c ∧ c ≤ 'z' then Char.ofNat (c.toNat - 32) else c

/-- Python `sequence.upper()`. -/
def pyUpper (s : List Char) : List Char := s.map pyUpperChar

/-- `validate_sequence(sequence, sequence_type="DNA")` (sequences.py 38-62):
picks the alphabet for the declared type (raising for any other type), then
raises `InvalidBases` with the offending set `set(sequence) - valid_bases`
unless every symbol is in the alphabet; returns `True` otherwise. -/
def validate_sequence (s : List Char) (t : String) : Except PyError Bool :=
  if t = "DNA" then
    if ∀ c ∈ s, c ∈ valid_dna_bases then .ok true
    else .error (.invalidBases (s.toFinset \ valid_dna_bases))
  else if t = "RNA" then
    if ∀ c ∈ s, c ∈ valid_rna_bases then .ok true
    else .error (.invalidBases (s.toFinset \ valid_rna_bases))
  else .error .invalidSequenceType

/-- Model of Biopython `Seq.transcribe()`: `T ↦ U` (and `t ↦ u`), everything
else unchanged, order and length preserved. -/
def bioTranscribe (s : List Char) : List Char :=
  s.map (fun c => if c = 'T' then 'U' else if c = 't' then 'u' else c)

/-- `transcribe_dna_to_rna` (sequences.py 117-132): validates as DNA, then
returns `Seq(dna_sequence).transcribe()`. -/
def transcribe_dna_to_rna (s : List Char) : Except PyError (List Char) :=
  match validate_sequence s "DNA" with
  | .error e => .error e
  | .ok _ => .ok (bioTranscribe s)

/-- The standard genetic code, keyed by T-alphabet codons. -/
def codonTableStd : List (List Char × Char) :=
  [("TTT".toList, 'F'), ("TTC".toList, 'F'), ("TTA".toList, 'L'), ("TTG".toList, 'L'),
   ("CTT".toList, 'L'), ("CTC".toList, 'L'), ("CTA".toList, 'L'), ("CTG".toList, 'L'),
   ("ATT".toList, 'I'), ("ATC".toList, 'I'), ("ATA".toList, 'I'), ("ATG".toList, 'M'),
   ("GTT".toList, 'V'), ("GTC".toList, 'V'), ("GTA".toList, 'V'), ("GTG".toList, 'V'),
   ("TCT".toList, 'S'), ("TCC".toList, 'S'), ("TCA".toList, 'S'), ("TCG".toList, 'S'),
   ("CCT".toList, 'P'), ("CCC".toList, 'P'), ("CCA".toList, 'P'), ("CCG".toList, 'P'),
   ("ACT".toList, 'T'), ("ACC".toList, 'T'), ("ACA".toList, 'T'), ("ACG".toList, 'T'),
   ("GCT".toList, 'A'), ("GCC".toList, 'A'), ("GCA".toList, 'A'), ("GCG".toList, 'A'),
   ("TAT".toList, 'Y'), ("TAC".toList, 'Y'), ("TAA".toList, '*'), ("TAG".toList, '*'),
   ("CAT".toList, 'H'), ("CAC".toList, 'H'), ("CAA".toList, 'Q'), ("CAG".toList, 'Q'),
   ("AAT".toList, 'N'), ("AAC".toList, 'N'), ("AAA".toList, 'K'), ("AAG".toList, 'K'),
   ("GAT".toList, 'D'), ("GAC".toList, 'D'), ("GAA".toList, 'E'), ("GAG".toList, 'E'),
   ("TGT".toList, 'C'), ("TGC".toList, 'C'), ("TGA".toList, '*'), ("TGG".toList, 'W'),
   ("CGT".toList, 'R'), ("CGC".toList, 'R'), ("CGA".toList, 'R'), ("CGG".toList, 'R'),
   ("AGT".toList, 'S'), ("AGC".toList, 'S'), ("AGA".toList, 'R'), ("AGG".toList, 'R'),
   ("GGT".toList, 'G'), ("GGC".toList, 'G'), ("GGA".toList, 'G'), ("GGG".toList, 'G')]

/-- Consecutive non-overlapping complete 3-symbol codons, left to right;
a trailing partial codon is dropped (Biopython translates complete codons
and only warns about a trailing remainder). -/
def codonsOf : List Char → List (List Char)
  | a :: b :: c :: rest => [a, b, c] :: codonsOf rest
  | _ => []

/-- Model of Biopython `Seq.translate()`: works on DNA and RNA alike
(`U` is treated as `T`), maps each complete codon through the standard
genetic code (`*` for stop), and is total on validated sequences (codons
not in the table, e.g. containing `N`, are rendered as `X`; Biopython's
finer ambiguity resolution is irrelevant to the claims, which only inspect
success or failure). -/
def bioTranslate (s : List Char) : List Char :=
  (codonsOf s).map (fun cdn =>
    ((codonTableStd.lookup (cdn.map (fun b => if b = 'U' then 'T' else b))).getD 'X'))

/-- `translate_seq_to_protein(sequence, sequence_type)` (sequences.py
134-147): validates with the caller-declared type, then returns
`Seq(sequence).translate()`.  There is no check that the type is `RNA`. -/
def translate_seq_to_protein (s : List Char) (t : String) : Except PyError (List Char) :=
  match validate_sequence s t with
  | .error e => .error e
  | .ok _ => .ok (bioTranslate s)

/-- `calculate_gc_content(sequence)` (sequences.py 149-166): validates with
the default type `"DNA"`, uppercases, and returns
`(gc_count/len(sequence)) * 100`.  The division is unguarded, so an empty
sequence raises `ZeroDivisionError` (modelled explicitly). -/
def calculate_gc_content (s : List Char) : Except PyError ℚ :=
  match validate_sequence s "DNA" with
  | .error e => .error e
  | .ok _ =>
    let u := pyUpper s
    let gc_count := u.count 'G' + u.count 'C'
    if u.length = 0 then .error .zeroDivisionError
    else .ok (((gc_count : ℚ) / (u.length : ℚ)) * 100)

/-- The fixed enzyme table of `find_restriction_sites` (sequences.py
182-187), in the insertion order of the Python dict literal. -/
def restriction_enzymes : List (String × List Char) :=
  [("EcoRI", "GAATTC".toList), ("BamHI", "GGATCC".toList),
   ("HindIII", "AAGCTT".toList), ("NotI", "GCGGCCGC".toList)]

/-- Whether `site` matches `u` at position `i` — the exact-substring test the
lookahead regex performs at one scan position. -/
def siteHitB (site u : List Char) (i : ℕ) : Bool :=
  decide ((u.drop i).take site.length = site)

/-- Model of `[m.start() for m in re.finditer(f'(?={site})', u)]`: the
zero-width lookahead makes `finditer` advance one position at a time over
every scan position of `u` (0 up to and including `u.length`), recording
each position where `site` matches — hence overlapping occurrences are all
reported, in increasing order. -/
def reFinditerStarts (site u : List Char) : List ℕ :=
  (List.range (u.length + 1)).filter (siteHitB site u)

/-- The `sities` dict built by the `for enzime, site in ...` loop
(sequences.py 189-201), as an insertion-ordered association list: an enzyme
is added only if its match list is nonempty. -/
def buildSites (u : List Char) : List (String × List Char) → List (String × List ℕ)
  | [] => []
  | (name, site) :: rest =>
    if reFinditerStarts site u = [] then buildSites u rest
    else (name, reFinditerStarts site u) :: buildSites u rest

/-- `find_restriction_sites(sequence)` (sequences.py 168-201): uppercases,
then scans for each enzyme of the fixed table. -/
def find_restriction_sites (s : List Char) : List (String × List ℕ) :=
  buildSites (pyUpper s) restriction_enzymes

/-- Floor of a rational, computed on its numerator and denominator. -/
def ratFloorZ (x : ℚ) : ℤ := x.num.fdiv (x.den : ℤ)

/-- Round a rational to the nearest integer, ties to even — the rounding
mode of Python's builtin `round`. -/
def roundHalfEven (x : ℚ) : ℤ :=
  let n := ratFloorZ x
  let f := x - (n : ℚ)
  if f < 1 / 2 then n
  else if 1 / 2 < f then n + 1
  else if n % 2 = 0 then n else n + 1

/-- Python `round(x, 2)` on the exact-rational model of a float. -/
def pyRound2 (q : ℚ) : ℚ := ((roundHalfEven (q * 100) : ℤ) : ℚ) / 100

/-- `base_weigth['DNA']` (sequences.py 218). -/
def base_weigth_dna : List (Char × ℚ) :=
  [('A', 331.2), ('T', 322.2), ('C', 307.2), ('G', 347.2)]

/-- `base_weigth['RNA']` (sequences.py 219). -/
def base_weigth_rna : List (Char × ℚ) :=
  [('A', 347.2), ('U', 324.2), ('C', 323.2), ('G', 363.2)]

/-- `sum(weigths.get(base, 0) for base in sequence.upper())` minus the
water-loss correction `(len(sequence)-1) * 18.0`, rounded to 2 decimals. -/
def mwCompute (table : List (Char × ℚ)) (s : List Char) : ℚ :=
  pyRound2 (((pyUpper s).map (fun c => ((table.lookup c).getD 0))).sum
    - ((s.length : ℚ) - 1) * 18)

/-- `calculate_molecular_weigth(sequence, sequence_type)` (sequences.py
202-228): `base_weigth[sequence_type]` raises `KeyError` for any type other
than `"DNA"`/`"RNA"`; otherwise the additive weight with end-correction. -/
def calculate_molecular_weigth (s : List Char) (t : String) : Except PyError ℚ :=
  if t = "DNA" then .ok (mwCompute base_weigth_dna s)
  else if t = "RNA" then .ok (mwCompute base_weigth_rna s)
  else .error (.keyError t)

/-- The dict returned by `analyze_single_sequence` (sequences.py 96-104).
`base_composition` (`{base: sequence.count(base) for base in set(sequence)}`)
is modelled as an association list over the distinct symbols in order of
first occurrence; `gc_content` holds the two-decimal value that the code
renders as the string `f"{gc_content:.2f}%"`. -/
structure AnalysisResult where
  sequence : List Char
  type : String
  length : ℕ
  base_composition : List (Char × ℕ)
  gc_content : ℚ
  restriction_sites : List (String × List ℕ)
  molecular_weigth : ℚ
deriving DecidableEq

/-- `analyze_single_sequence(sequence, sequence_type="DNA")` (sequences.py
64-104): validate, uppercase, count bases, compute guarded GC content,
find restriction sites, compute molecular weight, assemble the dict. -/
def analyze_single_sequence (s : List Char) (t : String) : Except PyError AnalysisResult :=
  match validate_sequence s t with
  | .error e => .error e
  | .ok _ =>
    let u := pyUpper s
    let length := u.length
    let base_counts := u.dedup.map (fun c => (c, u.count c))
    let gc_count := u.count 'G' + u.count 'C'
    let gc : ℚ := if 0 < length then ((gc_count : ℚ) / (length : ℚ)) * 100 else 0
    let sites := find_restriction_sites u
    match calculate_molecular_weigth u t with
    | .error e => .error e
    | .ok mw => .ok ⟨u, t, length, base_counts, pyRound2 gc, sites, mw⟩

/-- `analyze_multiple_sequences(sequences)` (sequences.py 106-115): the list
comprehension `[self.analyze_single_sequence(seq) for seq in sequences]`
evaluates left to right with the default type `"DNA"`; the first raised
error aborts the whole call with no partial results. -/
def analyze_multiple_sequences : List (List Char) → Except PyError (List AnalysisResult)
  | [] => .ok []
  | s :: rest =>
    match analyze_single_sequence s "DNA" with
    | .error e => .error e
    | .ok r =>
      match analyze_multiple_sequences rest with
      | .error e => .error e
      | .ok rs => .ok (r :: rs)

/-- Position `i` carries an exact-substring occurrence of `site` in `u`. -/
def occursAt (site u : List Char) (i : ℕ) : Prop :=
  ∃ l₁ l₂, u = l₁ ++ site ++ l₂ ∧ l₁.length = i

/-- Claim-side reading of the DNA weight table: the per-symbol entry, with
symbols absent from the table (such as `N`) contributing `0`. -/
def specDnaWeight (c : Char) : ℚ :=
  if c = 'A' then 331.2 else if c = 'T' then 322.2
  else if c = 'C' then 307.2 else if c = 'G' then 347.2 else 0

/-- Shape test used by closed witness statements: the call failed with the
`InvalidBases` error kind. -/
def errIsInvalidBases {α : Type} : Except PyError α → Bool
  | .error (.invalidBases _) => true
  | _ => false

/-- Decidable equality for modelled call results. -/
instance exceptDecEq {ε α : Type} [DecidableEq ε] [DecidableEq α] :
    DecidableEq (Except ε α) := fun x y =>
  match x, y with
  | .ok a, .ok b =>
    if h : a = b then .isTrue (by rw [h]) else .isFalse (by intro hh; cases hh; exact h rfl)
  | .error a, .error b =>
    if h : a = b then .isTrue (by rw [h]) else .isFalse (by intro hh; cases hh; exact h rfl)
  | .ok _, .error _ => .isFalse (by intro hh; cases hh)
  | .error _, .ok _ => .isFalse (by intro hh; cases hh)

/-- The DNA alphabet is untouched by uppercasing. -/
lemma pyUpperChar_of_dna : ∀ c ∈ valid_dna_bases, pyUpperChar c = c := by decide

/-- A sequence over the DNA alphabet is its own uppercasing. -/
lemma pyUpper_eq_self {s : List Char} (h : ∀ c ∈ s, c ∈ valid_dna_bases) :
    pyUpper s = s := by
  induction s with
  | nil => rfl
  | cons a l ih =>
    have ha : pyUpperChar a = a := pyUpperChar_of_dna a (h a (by simp))
    have hl : pyUpper l = l := ih (fun c hc => h c (by simp [hc]))
    simpa [pyUpper, ha] using hl

/-- Validation with the default type succeeds exactly on DNA-alphabet input. -/
lemma validate_dna_ok_iff {s : List Char} :
    validate_sequence s "DNA" = .ok true ↔ ∀ c ∈ s, c ∈ valid_dna_bases := by
  unfold validate_sequence
  rw [if_pos rfl]
  by_cases h : ∀ c ∈ s, c ∈ valid_dna_bases <;> simp [h]

/-- Validation with the default type fails with the offending symbol set. -/
lemma validate_dna_err {s : List Char} (h : ¬ ∀ c ∈ s, c ∈ valid_dna_bases) :
    validate_sequence s "DNA" = .error (.invalidBases (s.toFinset \ valid_dna_bases)) := by
  unfold validate_sequence
  rw [if_pos rfl, if_neg h]

/-- Validation as RNA succeeds exactly on the code's RNA alphabet. -/
lemma validate_rna_ok_iff {s : List Char} :
    validate_sequence s "RNA" = .ok true ↔ ∀ c ∈ s, c ∈ valid_rna_bases := by
  unfold validate_sequence
  rw [if_neg (by decide), if_pos rfl]
  by_cases h : ∀ c ∈ s, c ∈ valid_rna_bases <;> simp [h]

/-- Successful validation, over all declared types. -/
lemma validate_ok_iff {s : List Char} {t : String} :
    (∃ b, validate_sequence s t = .ok b) ↔
      ((t = "DNA" ∧ ∀ c ∈ s, c ∈ valid_dna_bases) ∨
       (t = "RNA" ∧ ∀ c ∈ s, c ∈ valid_rna_bases)) := by
  unfold validate_sequence
  by_cases hd : t = "DNA"
  · subst hd
    rw [if_pos rfl]
    by_cases h : ∀ c ∈ s, c ∈ valid_dna_bases
    · rw [if_pos h]
      exact ⟨fun _ => Or.inl ⟨rfl, h⟩, fun _ => ⟨true, rfl⟩⟩
    · rw [if_neg h]
      constructor
      · rintro ⟨b, hb⟩
        cases hb
      · rintro (⟨_, hh⟩ | ⟨ht, _⟩)
        · exact absurd hh h
        · exact absurd ht (by decide)
  · rw [if_neg hd]
    by_cases hr : t = "RNA"
    · subst hr
      rw [if_pos rfl]
      by_cases h : ∀ c ∈ s, c ∈ valid_rna_bases
      · rw [if_pos h]
        exact ⟨fun _ => Or.inr ⟨rfl, h⟩, fun _ => ⟨true, rfl⟩⟩
      · rw [if_neg h]
        constructor
        · rintro ⟨b, hb⟩
          cases hb
        · rintro (⟨ht, _⟩ | ⟨_, hh⟩)
          · exact absurd ht (by decide)
          · exact absurd hh h
    · rw [if_neg hr]
      constructor
      · rintro ⟨b, hb⟩
        cases hb
      · rintro (⟨ht, _⟩ | ⟨ht, _⟩)
        · exact absurd ht hd
        · exact absurd ht hr

/-- The scan's per-position test holds exactly at exact-substring
occurrences (for a nonempty site). -/
lemma siteHit_iff {site u : List Char} (hpos : 0 < site.length) (i : ℕ) :
    siteHitB site u i = true ↔ occursAt site u i := by
  simp only [siteHitB, decide_eq_true_eq]
  constructor
  · intro h
    have hlen := congrArg List.length h
    simp only [List.length_take, List.length_drop] at hlen
    have hile : i + site.length ≤ u.length := by omega
    refine ⟨u.take i, u.drop (i + site.length), ?_, ?_⟩
    · have h2 : u.drop i = site ++ u.drop (i + site.length) := by
        conv_lhs => rw [← List.take_append_drop site.length (u.drop i)]
        rw [h, List.drop_drop, Nat.add_comm]
      conv_lhs => rw [← List.take_append_drop i u]
      rw [h2, List.append_assoc]
    · rw [List.length_take]
      omega
  · rintro ⟨l₁, l₂, rfl, rfl⟩
    rw [List.append_assoc, List.drop_left, List.take_left]

/-- Membership in the scan result is exactly substring occurrence. -/
lemma mem_reFinditer_iff {site u : List Char} (hpos : 0 < site.length) (i : ℕ) :
    i ∈ reFinditerStarts site u ↔ occursAt site u i := by
  unfold reFinditerStarts
  rw [List.mem_filter, List.mem_range]
  constructor
  · rintro ⟨_, hb⟩
    exact (siteHit_iff hpos i).mp hb
  · intro h
    refine ⟨?_, (siteHit_iff hpos i).mpr h⟩
    obtain ⟨l₁, l₂, rfl, rfl⟩ := h
    simp only [List.length_append]
    omega

/-- The scan reports offsets in strictly increasing order. -/
lemma sorted_reFinditer (site u : List Char) :
    List.Sorted (· < ·) (reFinditerStarts site u) :=
  (List.pairwise_lt_range _).filter _

/-- A name that is not a key of the enzyme table is absent from the built
site dict. -/
lemma lookup_buildSites_not_mem (u : List Char) (name : String) :
    ∀ tbl : List (String × List Char), name ∉ tbl.map Prod.fst →
      (buildSites u tbl).lookup name = none := by
  intro tbl
  induction tbl with
  | nil => intro _; rfl
  | cons e rest ih =>
    obtain ⟨k, v⟩ := e
    intro hn
    rw [List.map_cons, List.mem_cons] at hn
    push_neg at hn
    simp only [buildSites]
    by_cases hm : reFinditerStarts v u = []
    · rw [if_pos hm]
      exact ih hn.2
    · rw [if_neg hm]
      simp only [List.lookup, beq_eq_false_iff_ne.mpr hn.1]
      exact ih hn.2

/-- Looking up an enzyme of the table in the built site dict yields its scan
result when nonempty and nothing otherwise. -/
lemma lookup_buildSites (u : List Char) :
    ∀ (tbl : List (String × List Char)) (name : String) (site : List Char),
      (name, site) ∈ tbl → (tbl.map Prod.fst).Nodup →
      (buildSites u tbl).lookup name =
        if reFinditerStarts site u = [] then none
        else some (reFinditerStarts site u) := by
  intro tbl
  induction tbl with
  | nil =>
    intro name site h _
    cases h
  | cons e rest ih =>
    obtain ⟨k, v⟩ := e
    intro name site hmem hnd
    rw [List.map_cons, List.nodup_cons] at hnd
    rcases List.mem_cons.mp hmem with heq | hrest
    · obtain ⟨h1, h2⟩ := Prod.mk.injEq .. ▸ heq
      subst h1
      subst h2
      simp only [buildSites]
      by_cases hm : reFinditerStarts site u = []
      · rw [if_pos hm, if_pos hm]
        exact lookup_buildSites_not_mem u name rest hnd.1
      · rw [if_neg hm, if_neg hm]
        simp [List.lookup]
    · have hkeys : name ∈ rest.map Prod.fst :=
        List.mem_map.mpr ⟨(name, site), hrest, rfl⟩
      have hne : name ≠ k := fun h => hnd.1 (h ▸ hkeys)
      simp only [buildSites]
      by_cases hm : reFinditerStarts v u = []
      · rw [if_pos hm]
        exact ih name site hrest hnd.2
      · rw [if_neg hm]
        simp only [List.lookup, beq_eq_false_iff_ne.mpr hne]
        exact ih name site hrest hnd.2

/-- C1: the claim says `validate_sequence(s, "RNA")` accepts exactly the
strings over `{A, U, C, G, N}`.  The code's RNA alphabet is the literal
`'AUTCN'`: evaluating the embedded validator shows that the pure-RNA
symbol `G` is rejected (with offending set `{G}`), that the DNA symbol `T`
is accepted as RNA, and that the all-RNA-alphabet string `"AUCGN"` is
rejected — each contradicting the claimed (and spec-intended) behavior. -/
theorem c1_rna_validator_code_eval :
    validate_sequence "G".toList "RNA" = .error (.invalidBases {'G'}) ∧
    validate_sequence "T".toList "RNA" = .ok true ∧
    validate_sequence "AUCGN".toList "RNA" = .error (.invalidBases {'G'}) := by
  decide

/-- C4 (counterexample): on `"ATCGAGAATTCGCTAGAATTCGGATCC"` the claim puts
EcoRI at `[5, 17]`; the embedded `find_restriction_sites` does not. -/
theorem c4_counterexample :
    (find_restriction_sites "ATCGAGAATTCGCTAGAATTCGGATCC".toList).lookup "EcoRI" ≠
      some [5, 17] := by
  decide

/-- C4 (amended): `find_restriction_sites` on
`"ATCGAGAATTCGCTAGAATTCGGATCC"` returns exactly EcoRI ↦ `[5, 15]` and
BamHI ↦ `[21]` (as the insertion-ordered dict), with HindIII and NotI
absent. -/
theorem c4_sites_amended :
    find_restriction_sites "ATCGAGAATTCGCTAGAATTCGGATCC".toList =
      [("EcoRI", [5, 15]), ("BamHI", [21])] := by
  decide

/-- C5: for every string and each enzyme of the fixed table,
`find_restriction_sites` maps the enzyme name to the strictly increasing
list of exactly the 0-based offsets where the recognition site occurs as an
exact substring of the uppercased sequence (overlapping occurrences
included, since membership is equivalent to occurrence at every offset);
an enzyme with zero matches is absent from the map, never present with an
empty list. -/
theorem c5_restriction_map (s : List Char) (name : String) (site : List Char)
    (hmem : (name, site) ∈ restriction_enzymes) :
    (∀ l, (find_restriction_sites s).lookup name = some l →
        l ≠ [] ∧ List.Sorted (· < ·) l ∧ ∀ i, i ∈ l ↔ occursAt site (pyUpper s) i)
    ∧ ((find_restriction_sites s).lookup name = none ↔
        ∀ i, ¬ occursAt site (pyUpper s) i) := by
  have hnd : (restriction_enzymes.map Prod.fst).Nodup := by decide
  have hpos : 0 < site.length := by
    simp only [restriction_enzymes, List.mem_cons, List.not_mem_nil, or_false,
      Prod.mk.injEq] at hmem
    rcases hmem with ⟨-, rfl⟩ | ⟨-, rfl⟩ | ⟨-, rfl⟩ | ⟨-, rfl⟩ <;> decide
  have hlk := lookup_buildSites (pyUpper s) restriction_enzymes name site hmem hnd
  constructor
  · intro l hl
    unfold find_restriction_sites at hl
    rw [hlk] at hl
    by_cases hm : reFinditerStarts site (pyUpper s) = []
    · rw [if_pos hm] at hl
      cases hl
    · rw [if_neg hm] at hl
      obtain rfl : reFinditerStarts site (pyUpper s) = l := by
        injection hl
      exact ⟨hm, sorted_reFinditer _ _, fun i => mem_reFinditer_iff hpos i⟩
  · unfold find_restriction_sites
    rw [hlk]
    by_cases hm : reFinditerStarts site (pyUpper s) = []
    · rw [if_pos hm]
      constructor
      · intro _ i hocc
        have hi : i ∈ reFinditerStarts site (pyUpper s) :=
          (mem_reFinditer_iff hpos i).mpr hocc
        rw [hm] at hi
        cases hi
      · intro _
        rfl
    · rw [if_neg hm]
      constructor
      · intro h
        cases h
      · intro hno
        exact absurd (List.eq_nil_iff_forall_not_mem.mpr
          (fun i hi => hno i ((mem_reFinditer_iff hpos i).mp hi))) hm

/-- C5 witness: NotI's site can overlap itself; in
`"GCGGCCGCGGCCGC"` the reported offsets `[0, 6]` are nonempty, strictly
increasing, and 6 indeed carries an (overlapping) occurrence. -/
theorem c5_restriction_map_witness :
    ([0, 6] : List ℕ) ≠ [] ∧ List.Sorted (· < ·) ([0, 6] : List ℕ) ∧
    occursAt "GCGGCCGC".toList (pyUpper "GCGGCCGCGGCCGC".toList) 6 := by
  have hm : ("NotI", "GCGGCCGC".toList) ∈ restriction_enzymes := by decide
  have h := (c5_restriction_map "GCGGCCGCGGCCGC".toList "NotI" "GCGGCCGC".toList hm).1
    [0, 6] (by decide)
  exact ⟨h.1, h.2.1, (h.2.2 6).mp (by decide)⟩

/-- C6: on every valid DNA sequence, `transcribe_dna_to_rna` succeeds with a
string of the same length whose symbol at each position is `U` where the
input had `T` and the unchanged input symbol otherwise — a pure
left-to-right rewrite, no reversal or complement. -/
theorem c6_transcribe (s : List Char) (h : ∀ c ∈ s, c ∈ valid_dna_bases) :
    ∃ r, transcribe_dna_to_rna s = .ok r ∧ r.length = s.length ∧
      ∀ i (hi : i < s.length) (hri : i < r.length),
        r.get ⟨i, hri⟩ = if s.get ⟨i, hi⟩ = 'T' then 'U' else s.get ⟨i, hi⟩ := by
  refine ⟨bioTranscribe s, ?_, by simp [bioTranscribe], ?_⟩
  · unfold transcribe_dna_to_rna
    rw [validate_dna_ok_iff.mpr h]
  · intro i hi hri
    have hc : s.get ⟨i, hi⟩ ∈ valid_dna_bases := h _ (s.get_mem i hi)
    have ht : s.get ⟨i, hi⟩ ≠ 't' := by
      intro hh
      rw [hh] at hc
      exact absurd hc (by decide)
    simp only [bioTranscribe, List.get_eq_getElem, List.getElem_map]
    by_cases hT : s.get ⟨i, hi⟩ = 'T'
    · simp only [List.get_eq_getElem] at hT
      simp [hT]
    · simp only [List.get_eq_getElem] at hT ht
      simp [hT, ht]

/-- C6 witness: `transcribe("ATCG")` is `"AUCG"`, of equal length. -/
theorem c6_transcribe_witness :
    transcribe_dna_to_rna "ATCG".toList = .ok "AUCG".toList ∧
    ("AUCG".toList).length = ("ATCG".toList).length := by
  obtain ⟨r, hr, hlen, -⟩ := c6_transcribe "ATCG".toList (by decide)
  have hconc : transcribe_dna_to_rna "ATCG".toList = .ok "AUCG".toList := by decide
  have hre : r = "AUCG".toList := by
    injection hr.symm.trans hconc
  rw [hre] at hlen
  exact ⟨hconc, hlen⟩

/-- C2 (counterexample): the claim says `translate_seq_to_protein` fails
whenever the declared type is not `"RNA"`; but with the declared type
`"DNA"` and the valid DNA sequence `"ATG"` the embedded code succeeds and
returns the protein `"M"` — there is no RNA-only guard in the code. -/
theorem c2_counterexample :
    translate_seq_to_protein "ATG".toList "DNA" = .ok ['M'] := by
  decide

/-- C2 (amended): `translate_seq_to_protein(s, t)` succeeds exactly when
validation succeeds: when `t` is `"DNA"` and `s` is over the DNA alphabet,
or `t` is `"RNA"` and `s` is over the code's RNA alphabet.  Hence it fails
for any other declared type or any invalid sequence, but a valid DNA
sequence with declared type `"DNA"` is translated, not rejected. -/
theorem c2_amended (s : List Char) (t : String) :
    (∃ p, translate_seq_to_protein s t = .ok p) ↔
      ((t = "DNA" ∧ ∀ c ∈ s, c ∈ valid_dna_bases) ∨
       (t = "RNA" ∧ ∀ c ∈ s, c ∈ valid_rna_bases)) := by
  rw [← validate_ok_iff]
  unfold translate_seq_to_protein
  cases hv : validate_sequence s t with
  | error e => simp
  | ok b => simp

/-- C3: the formula part of the claim holds — on every valid nonempty
DNA-alphabet sequence, `calculate_gc_content` returns
`100 * (count(G)+count(C)) / length` — but the guarded-division part fails:
on the empty sequence the embedded code raises `ZeroDivisionError`
(`(gc_count/len(sequence)) * 100` at sequences.py line 166 is unguarded)
instead of returning `0` as the claim states. -/
theorem c3_gc_content :
    (∀ s : List Char, (∀ c ∈ s, c ∈ valid_dna_bases) → s ≠ [] →
        calculate_gc_content s =
          .ok (100 * ((s.count 'G' : ℚ) + (s.count 'C' : ℚ)) / (s.length : ℚ)))
    ∧ calculate_gc_content [] = .error .zeroDivisionError := by
  constructor
  · intro s h hne
    unfold calculate_gc_content
    rw [validate_dna_ok_iff.mpr h]
    simp only [pyUpper_eq_self h]
    rw [if_neg (by simpa [List.length_eq_zero] using hne)]
    congr 1
    push_cast
    ring
  · rfl

/-- C3 witness: the formula at the concrete valid sequence `"ATCG"`. -/
theorem c3_gc_content_witness :
    calculate_gc_content "ATCG".toList =
      .ok (100 * (("ATCG".toList.count 'G' : ℚ) + ("ATCG".toList.count 'C' : ℚ)) /
        ("ATCG".toList.length : ℚ)) :=
  c3_gc_content.1 "ATCG".toList (by decide) (by decide)

/-- Each per-symbol weight the code looks up (`weigths.get(base, 0)` over
`base_weigth['DNA']`) equals the claim-side table reading. -/
lemma dnaWeight_lookup (c : Char) :
    ((base_weigth_dna.lookup c).getD 0) = specDnaWeight c := by
  unfold base_weigth_dna specDnaWeight
  by_cases hA : c = 'A'
  · simp [List.lookup, hA]
  · by_cases hT : c = 'T'
    · simp [List.lookup, hA, hT]
    · by_cases hC : c = 'C'
      · simp [List.lookup, hA, hT, hC]
      · by_cases hG : c = 'G'
        · simp [List.lookup, hA, hT, hC, hG]
        · simp [List.lookup, beq_eq_false_iff_ne.mpr hA, beq_eq_false_iff_ne.mpr hT,
            beq_eq_false_iff_ne.mpr hC, beq_eq_false_iff_ne.mpr hG, hA, hT, hC, hG]

/-- C7: on every DNA-alphabet sequence of length at least 2,
`calculate_molecular_weigth(s, "DNA")` is the sum of the per-symbol DNA
weight-table entries (absent symbols, such as `N`, contributing 0) minus
`(length - 1) * 18.0`, rounded to two decimals. -/
theorem c7_molecular_weight (s : List Char) (h1 : ∀ c ∈ s, c ∈ valid_dna_bases)
    (h2 : 2 ≤ s.length) :
    calculate_molecular_weigth s "DNA" =
      .ok (pyRound2 ((s.map specDnaWeight).sum - ((s.length : ℚ) - 1) * 18)) := by
  unfold calculate_molecular_weigth
  rw [if_pos rfl]
  unfold mwCompute
  rw [pyUpper_eq_self h1,
    show (fun c => ((base_weigth_dna.lookup c).getD 0)) = specDnaWeight from
      funext dnaWeight_lookup]

/-- C7 witness: the theorem applied to `"ATCG"` (length 4 ≥ 2). -/
theorem c7_molecular_weight_witness :
    2 ≤ ("ATCG".toList).length ∧
    calculate_molecular_weigth "ATCG".toList "DNA" =
      .ok (pyRound2 (("ATCG".toList.map specDnaWeight).sum -
        (("ATCG".toList.length : ℚ) - 1) * 18)) :=
  ⟨by decide, c7_molecular_weight "ATCG".toList (by decide) (by decide)⟩

/-- With the default type `"DNA"`, the weight step of `analyze_single`
cannot fail. -/
lemma mw_dna_ok (u : List Char) :
    calculate_molecular_weigth u "DNA" = .ok (mwCompute base_weigth_dna u) := by
  unfold calculate_molecular_weigth
  rw [if_pos rfl]

/-- On a DNA-alphabet sequence, `analyze_single_sequence` with the default
type succeeds. -/
lemma analyze_single_ok {s : List Char} (h : ∀ c ∈ s, c ∈ valid_dna_bases) :
    ∃ a, analyze_single_sequence s "DNA" = .ok a := by
  simp only [analyze_single_sequence, validate_dna_ok_iff.mpr h, mw_dna_ok]
  exact ⟨_, rfl⟩

/-- A successful `analyze_single_sequence` result carries the declared
type in its `type` field. -/
lemma analyze_single_type {s : List Char} {t : String} {a : AnalysisResult}
    (hok : analyze_single_sequence s t = .ok a) : a.type = t := by
  unfold analyze_single_sequence at hok
  cases hv : validate_sequence s t with
  | error e =>
    rw [hv] at hok
    cases hok
  | ok b =>
    rw [hv] at hok
    cases hm : calculate_molecular_weigth (pyUpper s) t with
    | error e =>
      simp only [hm] at hok
      cases hok
    | ok mw =>
      simp only [hm] at hok
      injection hok with h
      rw [← h]

/-- With the default type, the only failure `analyze_single_sequence` can
produce is `InvalidBases`. -/
lemma analyze_single_err_shape {s : List Char} {e : PyError}
    (he : analyze_single_sequence s "DNA" = .error e) :
    ∃ bad, e = .invalidBases bad := by
  by_cases h : ∀ c ∈ s, c ∈ valid_dna_bases
  · exfalso
    unfold analyze_single_sequence at he
    rw [validate_dna_ok_iff.mpr h] at he
    simp only [mw_dna_ok] at he
    cases he
  · unfold analyze_single_sequence at he
    rw [validate_dna_err h] at he
    injection he with h1
    exact ⟨s.toFinset \ valid_dna_bases, h1.symm⟩

/-- A sequence containing `U` fails DNA-default analysis with the offending
symbol set. -/
lemma analyze_single_err_of_U {s : List Char} (hU : 'U' ∈ s) :
    analyze_single_sequence s "DNA" =
      .error (.invalidBases (s.toFinset \ valid_dna_bases)) := by
  have h : ¬ ∀ c ∈ s, c ∈ valid_dna_bases := fun hall => absurd (hall 'U' hU) (by decide)
  unfold analyze_single_sequence
  rw [validate_dna_err h]

/-- C8: the batch call processes its input in order: when every sequence is
valid it returns one result per input positionally; the first validation
failure (after any prefix of valid sequences) aborts the whole call with
that sequence's error and no partial results; in particular the batch
`["ATCG", "ATXG"]` fails as a whole with `InvalidBases {X}`. -/
theorem c8_batch :
    (∀ l : List (List Char), (∀ s ∈ l, ∀ c ∈ s, c ∈ valid_dna_bases) →
        ∃ r, analyze_multiple_sequences l = .ok r ∧ r.length = l.length ∧
          ∀ i (hl : i < l.length) (hr : i < r.length),
            analyze_single_sequence (l.get ⟨i, hl⟩) "DNA" = .ok (r.get ⟨i, hr⟩))
    ∧ (∀ (pre : List (List Char)) (s : List Char) (post : List (List Char)) (e : PyError),
        analyze_single_sequence s "DNA" = .error e →
        (∀ p ∈ pre, ∀ c ∈ p, c ∈ valid_dna_bases) →
        analyze_multiple_sequences (pre ++ s :: post) = .error e)
    ∧ analyze_multiple_sequences ["ATCG".toList, "ATXG".toList] =
        .error (.invalidBases {'X'}) := by
  refine ⟨?_, ?_, ?_⟩
  · intro l
    induction l with
    | nil =>
      intro _
      exact ⟨[], rfl, rfl, fun i hl _ => absurd hl (by simp)⟩
    | cons s0 rest ih =>
      intro hall
      obtain ⟨a, ha⟩ := analyze_single_ok (hall s0 (by simp))
      obtain ⟨r, hr, hlen, hpt⟩ := ih (fun p hp => hall p (by simp [hp]))
      refine ⟨a :: r, ?_, by simp [hlen], ?_⟩
      · simp only [analyze_multiple_sequences]
        rw [ha, hr]
      · intro i hl hr2
        cases i with
        | zero => simpa using ha
        | succ n =>
          have hn : n < rest.length := by simpa using hl
          have hn2 : n < r.length := by
            rw [hlen]
            exact hn
          simpa using hpt n hn hn2
  · intro pre
    induction pre with
    | nil =>
      intro s post e he _
      simp only [List.nil_append, analyze_multiple_sequences]
      rw [he]
    | cons p0 rest ih =>
      intro s post e he hall
      obtain ⟨a, ha⟩ := analyze_single_ok (hall p0 (by simp))
      have hrec := ih s post e he (fun p hp => hall p (by simp [hp]))
      simp only [List.cons_append, analyze_multiple_sequences, List.append_eq, ha, hrec]
  · have hx : analyze_single_sequence "ATXG".toList "DNA" =
        .error (.invalidBases ("ATXG".toList.toFinset \ valid_dna_bases)) := by
      have h : ¬ ∀ c ∈ "ATXG".toList, c ∈ valid_dna_bases := by decide
      unfold analyze_single_sequence
      rw [validate_dna_err h]
    obtain ⟨a, ha⟩ := analyze_single_ok (show ∀ c ∈ "ATCG".toList, c ∈ valid_dna_bases by decide)
    have hset : ("ATXG".toList.toFinset \ valid_dna_bases) = {'X'} := by decide
    simp only [analyze_multiple_sequences, ha, hx, hset]

/-- C8 witness: a concrete valid singleton batch succeeds. -/
theorem c8_batch_witness :
    (analyze_multiple_sequences ["ATCG".toList]).isOk = true := by
  obtain ⟨r, hr, -, -⟩ := c8_batch.1 ["ATCG".toList] (by decide)
  rw [hr]
  rfl

/-- C9: `calculate_gc_content` validates with the hard-wired default type
`"DNA"`, so every string containing `U` — every U-bearing valid RNA
sequence included — fails with `InvalidBases`, with `U` among the reported
offending symbols, instead of returning a percentage. -/
theorem c9_gc_rejects_rna (s : List Char) (hU : 'U' ∈ s) :
    ∃ bad, calculate_gc_content s = .error (.invalidBases bad) ∧ 'U' ∈ bad := by
  have h : ¬ ∀ c ∈ s, c ∈ valid_dna_bases := fun hall => absurd (hall 'U' hU) (by decide)
  refine ⟨s.toFinset \ valid_dna_bases, ?_, ?_⟩
  · unfold calculate_gc_content
    rw [validate_dna_err h]
  · rw [Finset.mem_sdiff]
    exact ⟨List.mem_toFinset.mpr hU, by decide⟩

/-- C9 witness: the valid RNA sequence `"AUG"` is rejected with
`InvalidBases`. -/
theorem c9_gc_rejects_rna_witness :
    errIsInvalidBases (calculate_gc_content "AUG".toList) = true := by
  obtain ⟨bad, hb, -⟩ := c9_gc_rejects_rna "AUG".toList (by decide)
  rw [hb]
  rfl

/-- C10: the batch call analyzes every sequence with the default type
`"DNA"`: every result of a successful batch carries `type = "DNA"` (there
is no way to declare RNA for a batch item), and any batch containing a
U-bearing sequence (valid RNA) fails as a whole with `InvalidBases`. -/
theorem c10_batch_default_dna :
    (∀ (l : List (List Char)) (r : List AnalysisResult),
        analyze_multiple_sequences l = .ok r → ∀ a ∈ r, a.type = "DNA")
    ∧ (∀ (l : List (List Char)) (s : List Char), s ∈ l → 'U' ∈ s →
        ∃ bad, analyze_multiple_sequences l = .error (.invalidBases bad)) := by
  constructor
  · intro l
    induction l with
    | nil =>
      intro r hok a ha
      injection hok with h
      rw [← h] at ha
      cases ha
    | cons s0 rest ih =>
      intro r hok a ha
      cases h0 : analyze_single_sequence s0 "DNA" with
      | error e =>
        simp only [analyze_multiple_sequences, h0] at hok
        cases hok
      | ok a0 =>
        cases hrest : analyze_multiple_sequences rest with
        | error e =>
          simp only [analyze_multiple_sequences, h0, hrest] at hok
          cases hok
        | ok rs =>
          simp only [analyze_multiple_sequences, h0, hrest] at hok
          injection hok with h
          rw [← h] at ha
          rcases List.mem_cons.mp ha with rfl | har
          · exact analyze_single_type h0
          · exact ih rs hrest a har
  · intro l s
    induction l with
    | nil =>
      intro hs _
      cases hs
    | cons s0 rest ih =>
      intro hs hU
      cases h0 : analyze_single_sequence s0 "DNA" with
      | error e =>
        obtain ⟨bad, rfl⟩ := analyze_single_err_shape h0
        exact ⟨bad, by simp only [analyze_multiple_sequences, h0]⟩
      | ok a0 =>
        rcases List.mem_cons.mp hs with rfl | hrest
        · rw [analyze_single_err_of_U hU] at h0
          cases h0
        · obtain ⟨bad, hb⟩ := ih hrest hU
          refine ⟨bad, ?_⟩
          simp only [analyze_multiple_sequences, h0, hb]

/-- C10 witness: a batch holding the valid RNA sequence `"AUG"` fails with
`InvalidBases`. -/
theorem c10_batch_default_dna_witness :
    errIsInvalidBases (analyze_multiple_sequences ["AUG".toList]) = true := by
  obtain ⟨bad, hb⟩ := c10_batch_default_dna.2 ["AUG".toList] "AUG".toList (by simp) (by decide)
  rw [hb]
  rfl
